import Mathlib

/-!
# Verification of the khafi-gateway admission core

A shallow embedding of the admission-controller hot path
(`crates/zk-verification-service`), the tenant→image registry
(`crates/image-id-registry/src/storage.rs`) and the DSL compiler
(`crates/logic-compiler`), with theorems settling the spec claims.

The Redis key-value store is modelled as explicit state: each key family
(`nullifier:<hex>`, `payment:<hex>`, `reserved:<hex>`, `chain:block_height`,
the index sets, `deployment:<id>`, `image_id:<hex>`) lives in its own field
of a store structure; since the key prefixes are pairwise distinct this is
a faithful rendering of the shared keyspace.  Redis `SET` overwrites, so a
set is modelled by (key, value)-cons after deleting the key; `SETNX`
checks for absence first.  Cryptographic receipt verification is not
shallow-embeddable and enters as an oracle parameter of the admission
function; everything around it is translated from the source.
-/

namespace Khafi

/-! ## Association-list key/value primitives (the Redis string keyspace) -/

/-- Lookup of a key in an association list (the value Redis `GET` returns). -/
def kvGet {α : Type} : List (String × α) → String → Option α
  | [], _ => none
  | (k, v) :: rest, q => if q = k then some v else kvGet rest q

/-- Redis `DEL`: remove every binding of the key. -/
def kvDel {α : Type} : List (String × α) → String → List (String × α)
  | [], _ => []
  | (k', v) :: rest, k =>
    if k' = k then kvDel rest k else (k', v) :: kvDel rest k

/-- Redis `SET`: overwrite the binding of the key. -/
def kvSet {α : Type} (l : List (String × α)) (k : String) (v : α) :
    List (String × α) :=
  (k, v) :: kvDel l k

/-- Redis `SADD` on a set modelled as a duplicate-free list. -/
def setAdd (l : List String) (x : String) : List String :=
  if x ∈ l then l else x :: l

/-- Redis `SREM`. -/
def setRem (l : List String) (x : String) : List String :=
  l.filter (fun y => y ≠ x)

/-! ## Nullifiers (`crates/common/src/nullifier.rs`)

A nullifier is a 32-byte value; bytes are modelled as `Nat` values below
256.  `to_hex` is the `hex` crate's lowercase encoding, `from_hex` its
decoding followed by the length-32 check of `Nullifier::from_hex`. -/

/-- The sixteen lowercase hex digit characters. -/
def hexDigits : List Char := "0123456789abcdef".data

/-- Lowercase hex encoding of one byte (two characters). -/
def byteToHexChars (b : Nat) : List Char :=
  [hexDigits.getD (b / 16 % 16) '0', hexDigits.getD (b % 16) '0']

/-- Numeric value of a hex digit character, accepting both cases. -/
def hexCharVal (c : Char) : Option Nat :=
  if '0' ≤ c ∧ c ≤ '9' then some (c.toNat - '0'.toNat)
  else if 'a' ≤ c ∧ c ≤ 'f' then some (c.toNat - 'a'.toNat + 10)
  else if 'A' ≤ c ∧ c ≤ 'F' then some (c.toNat - 'A'.toNat + 10)
  else none

/-- `hex::decode` on a character list: consumes pairs of hex digits,
fails on an odd length or a non-hex character. -/
def hexDecodeChars : List Char → Option (List Nat)
  | [] => some []
  | [_] => none
  | c₁ :: c₂ :: rest => do
    let hi ← hexCharVal c₁
    let lo ← hexCharVal c₂
    let tail ← hexDecodeChars rest
    pure ((hi * 16 + lo) :: tail)

/-- A 32-byte nullifier (`Nullifier(pub [u8; 32])`). -/
structure Nullifier where
  bytes : List Nat
  deriving DecidableEq, Repr

namespace Nullifier

/-- `Nullifier::to_hex` — `hex::encode(self.0)`. -/
def to_hex (n : Nullifier) : String :=
  String.mk (n.bytes.flatMap byteToHexChars)

/-- `Nullifier::from_hex` — hex-decode, then require exactly 32 bytes. -/
def from_hex (s : String) : Option Nullifier :=
  match hexDecodeChars s.data with
  | none => none
  | some bs => if bs.length = 32 then some ⟨bs⟩ else none

end Nullifier

/-! ## The admission-service store state

One structure holding, per key family, the bindings the
zk-verification-service reads and writes.  TTLs (`EXPIRE` /
`SET ... EX`) are recorded as the number of seconds attached to the key. -/

/-- Redis state as seen by the admission service. -/
structure Store where
  /-- `nullifier:<hex>` keys; value is the TTL in seconds given on creation. -/
  nullifiers : List (String × Nat)
  /-- `payment:<hex>` hashes: field/value string pairs. -/
  payments : List (String × List (String × String))
  /-- `reserved:<hex>` keys; value is the TTL in seconds given on creation. -/
  reserved : List (String × Nat)
  /-- The `payments:reserved` set. -/
  reservedSet : List String
  /-- The `payments:unused` set. -/
  unusedSet : List String
  /-- The `chain:block_height` key (a decimal string when present). -/
  chainHeight : Option String
  deriving DecidableEq, Repr

/-- The empty store. -/
def Store.empty : Store :=
  ⟨[], [], [], [], [], none⟩

/-- Seconds in 30 days, the TTL `NullifierChecker::check_and_set` attaches. -/
def nullifierTtlSecs : Nat := 2592000

/-! ## Nullifier index (`zk-verification-service/src/nullifier.rs`) -/

/-- `NullifierChecker::check_and_set`: `SET NX` on `nullifier:<hex>`, and on
first success an `EXPIRE` of 30 days.  Returns whether the key was new,
plus the updated store. -/
def check_and_set (s : Store) (n : Nullifier) : Bool × Store :=
  let key := "nullifier:" ++ n.to_hex
  match kvGet s.nullifiers key with
  | some _ => (false, s)
  | none => (true, { s with nullifiers := kvSet s.nullifiers key nullifierTtlSecs })

/-! ## Payment checker (`zk-verification-service/src/payment.rs`) -/

/-- Reservation TTL: `RESERVATION_TTL_SECS = 300`. -/
def reservationTtlSecs : Nat := 300

/-- `DEFAULT_MIN_PAYMENT_AMOUNT = 100_000`. -/
def defaultMinPaymentAmount : Nat := 100000

/-- `DEFAULT_MIN_CONFIRMATIONS = 1`. -/
def defaultMinConfirmations : Nat := 1

/-- Rust's `str::parse` for an unsigned integer type with exclusive upper
bound `bound` (`2^32` for `u32`, `2^64` for `u64`): an optional leading
`+`, then decimal digits, rejecting overflow. -/
def rustParseNat (bound : Nat) (s : String) : Option Nat :=
  let cs :=
    match s.data with
    | '+' :: rest => rest
    | cs => cs
  if cs.isEmpty then none
  else if cs.all (fun c => decide ('0' ≤ c ∧ c ≤ '9')) then
    let v := cs.foldl (fun acc c => acc * 10 + (c.toNat - '0'.toNat)) 0
    if v < bound then some v else none
  else none

/-- Lookup in a Rust `HashMap` built by `collect` from a pair list: the
last binding of a duplicated key wins. -/
def kvGetLast (l : List (String × String)) (k : String) : Option String :=
  kvGet l.reverse k

/-- `PaymentInfo` (amount in zatoshis, confirmation block height, used
flag, transaction id). -/
structure PaymentInfo where
  amount : Nat
  block_height : Nat
  used : Bool
  tx_id : String
  deriving DecidableEq, Repr

/-- `PaymentConfig`. -/
structure PaymentConfig where
  requirePayment : Bool
  minPaymentAmount : Nat
  minConfirmations : Nat
  deriving Repr

/-- The errors `PaymentChecker` can produce (each an `Error::Zcash`
with a distinct message; `parseFailed` stands for a propagated error of
`parse_payment_fields`, which in fact never fails). -/
inductive PayErr
  | notFound
  | alreadyUsed
  | reserved
  | belowMinimum (amount min : Nat)
  | insufficientConfirmations (conf need : Nat)
  | heightUnavailable
  | parseFailed (msg : String)
  deriving DecidableEq, Repr

/-- The `Display` rendering of each payment error (`Error::Zcash` prints
as `Zcash error: {inner}`). -/
def PayErr.display : PayErr → String
  | .notFound => "Zcash error: Payment not found"
  | .alreadyUsed => "Zcash error: Payment already used"
  | .reserved => "Zcash error: Payment is reserved by another request"
  | .belowMinimum a m =>
    "Zcash error: Payment amount " ++ toString a ++ " below minimum " ++ toString m
  | .insufficientConfirmations c m =>
    "Zcash error: Payment has " ++ toString c ++ " confirmations, need at least "
      ++ toString m
  | .heightUnavailable => "Zcash error: Block height not available"
  | .parseFailed e => e

/-- `PaymentChecker::parse_payment_fields`: total field decoding with
defaults — missing or unparsable `amount`/`block_height` become 0, a
missing `tx_id` becomes the empty string, and `used` is true exactly when
the field is present and equals `"true"`.  The `Result` return mirrors
the Rust signature; the body is a bare `Ok` of this record. -/
def paymentInfoOfFields (fields : List (String × String)) : PaymentInfo :=
  { amount := ((kvGetLast fields "amount").bind (rustParseNat (2 ^ 64))).getD 0
    block_height :=
      ((kvGetLast fields "block_height").bind (rustParseNat (2 ^ 32))).getD 0
    used := ((kvGetLast fields "used").map (fun s => s == "true")).getD false
    tx_id := (kvGetLast fields "tx_id").getD "" }

/-- `PaymentChecker::parse_payment_fields` proper: the `Result` wrapper
around `paymentInfoOfFields`. -/
def parse_payment_fields (fields : List (String × String)) :
    Except String PaymentInfo :=
  .ok (paymentInfoOfFields fields)

/-- `PaymentChecker::get_current_block_height`: read
`chain:block_height` and parse it as `u32`. -/
def get_current_block_height (s : Store) : Option Nat :=
  s.chainHeight.bind (rustParseNat (2 ^ 32))

/-- `PaymentChecker::check_payment`: existence, used flag, reservation,
minimum amount, then confirmations (`saturating_sub` is `Nat`
subtraction), in that order. -/
def check_payment (cfg : PaymentConfig) (s : Store) (n : Nullifier) :
    Except PayErr PaymentInfo :=
  let nullifierHex := n.to_hex
  let paymentKey := "payment:" ++ nullifierHex
  match kvGet s.payments paymentKey with
  | none => .error .notFound
  | some fields =>
    match parse_payment_fields fields with
    | .error e => .error (.parseFailed e)
    | .ok info =>
      if info.used then .error .alreadyUsed
      else if (kvGet s.reserved ("reserved:" ++ nullifierHex)).isSome then
        .error .reserved
      else if info.amount < cfg.minPaymentAmount then
        .error (.belowMinimum info.amount cfg.minPaymentAmount)
      else
        match get_current_block_height s with
        | none => .error .heightUnavailable
        | some currentHeight =>
          let confirmations := currentHeight - info.block_height
          if confirmations < cfg.minConfirmations then
            .error (.insufficientConfirmations confirmations cfg.minConfirmations)
          else .ok info

/-- `PaymentChecker::reserve_payment`: `SET NX EX 300` on
`reserved:<hex>`, then `SADD payments:reserved`. -/
def reserve_payment (s : Store) (n : Nullifier) : Except Unit Store :=
  let nullifierHex := n.to_hex
  let reservedKey := "reserved:" ++ nullifierHex
  if (kvGet s.reserved reservedKey).isSome then .error ()
  else
    .ok
      { s with
        reserved := kvSet s.reserved reservedKey reservationTtlSecs
        reservedSet := setAdd s.reservedSet nullifierHex }

/-- `PaymentChecker::confirm_payment`: set `used`/`used_at` on the hash,
`SREM payments:unused`, `DEL reserved:<hex>`, `SREM payments:reserved`.
`now` is the RFC 3339 timestamp taken at the call. -/
def confirm_payment (s : Store) (n : Nullifier) (now : String) : Store :=
  let nullifierHex := n.to_hex
  let paymentKey := "payment:" ++ nullifierHex
  let fields := (kvGet s.payments paymentKey).getD []
  let fields' := kvSet (kvSet fields "used" "true") "used_at" now
  { s with
    payments := kvSet s.payments paymentKey fields'
    unusedSet := setRem s.unusedSet nullifierHex
    reserved := kvDel s.reserved ("reserved:" ++ nullifierHex)
    reservedSet := setRem s.reservedSet nullifierHex }

/-- `PaymentChecker::release_reservation`: `DEL reserved:<hex>`,
`SREM payments:reserved`; the used flag is untouched. -/
def release_reservation (s : Store) (n : Nullifier) : Store :=
  { s with
    reserved := kvDel s.reserved ("reserved:" ++ n.to_hex)
    reservedSet := setRem s.reservedSet n.to_hex }

/-! ## Admission controller (`zk-verification-service/src/service.rs`)

`AuthorizationService::check` is embedded as a pure function over the
store.  The cryptographic part of `verify_proof` (hex decode, bincode
decode, `Receipt::verify_and_decode`, the compliance-flag check) is not
shallow-embeddable and enters as the oracle `verifyProof`, whose
`Except` mirrors `verify_proof`'s `Result<Nullifier, Status>`.  A single
fault-injection flag `confirmFails` models `confirm_payment` returning
`Err`, which the source only logs. -/

/-- The Envoy `CheckResponse` status codes the service emits. -/
inductive RespCode
  | ok
  | unauthenticated
  | permissionDenied
  deriving DecidableEq, Repr

/-- Codes of tonic `Status` errors returned as `Err` from `check` or by
`verify_proof`. -/
inductive GCode
  | unauthenticated
  | invalidArgument
  | unavailable
  | permissionDenied
  deriving DecidableEq, Repr

/-- A tonic `Status`: code and message. -/
structure GrpcStatus where
  code : GCode
  message : String
  deriving DecidableEq, Repr

/-- The body of an Envoy `CheckResponse`. -/
structure CheckResponseMsg where
  status : RespCode
  message : String
  metadata : List (String × String)
  deriving DecidableEq, Repr

/-- Outcome of `check`: `Err(Status)` or `Ok(Response<CheckResponse>)`. -/
inductive CheckOutcome
  | err (status : GrpcStatus)
  | resp (r : CheckResponseMsg)
  deriving DecidableEq, Repr

/-- Which payment-store side effects the request attempted. -/
structure Trace where
  reserveAttempted : Bool
  releaseAttempted : Bool
  confirmAttempted : Bool
  deriving DecidableEq, Repr

/-- The empty trace. -/
def Trace.none : Trace := ⟨false, false, false⟩

/-- `AuthorizationService::check`.  Steps, in source order: extract the
two headers, parse the nullifier, replay-guard via `check_and_set`,
payment check + reservation when payment is required, proof
verification, header/proof nullifier comparison, confirmation, success
response carrying `x-payment-nullifier`. -/
def svcCheck (cfg : PaymentConfig)
    (verifyProof : String → Except GrpcStatus Nullifier)
    (confirmFails : Bool) (now : String) (s : Store)
    (headers : List (String × String)) : CheckOutcome × Store × Trace :=
  match kvGet headers "x-zk-receipt" with
  | none => (.err ⟨.unauthenticated, "Missing x-zk-receipt header"⟩, s, Trace.none)
  | some receiptHex =>
    match kvGet headers "x-zk-nullifier" with
    | none => (.err ⟨.unauthenticated, "Missing x-zk-nullifier header"⟩, s, Trace.none)
    | some nullifierHex =>
      match Nullifier.from_hex nullifierHex with
      | none => (.err ⟨.invalidArgument, "Invalid nullifier format"⟩, s, Trace.none)
      | some nullifier =>
        let res := check_and_set s nullifier
        let s1 := res.2
        if res.1 = false then
          (.resp ⟨.unauthenticated, "Nullifier replay detected", []⟩, s1, Trace.none)
        else
          -- after the payment phase: verify, compare nullifiers, confirm
          let finish : Bool → Store → Trace → CheckOutcome × Store × Trace :=
            fun paymentReserved s2 tr =>
              match verifyProof receiptHex with
              | .error status =>
                let s3 := if paymentReserved then release_reservation s2 nullifier else s2
                (.resp ⟨.permissionDenied, status.message, []⟩, s3,
                  { tr with releaseAttempted := paymentReserved })
              | .ok verifiedNullifier =>
                if verifiedNullifier.bytes ≠ nullifier.bytes then
                  let s3 :=
                    if paymentReserved then release_reservation s2 nullifier else s2
                  (.resp ⟨.permissionDenied,
                      "Nullifier mismatch between header and proof", []⟩, s3,
                    { tr with releaseAttempted := paymentReserved })
                else
                  let s3 :=
                    if paymentReserved then
                      if confirmFails then s2 else confirm_payment s2 nullifier now
                    else s2
                  (.resp ⟨.ok, "Proof verified successfully",
                      [("x-payment-nullifier", nullifier.to_hex)]⟩, s3,
                    { tr with confirmAttempted := paymentReserved })
          if cfg.requirePayment then
            match check_payment cfg s1 nullifier with
            | .error e =>
              (.resp ⟨.permissionDenied,
                  "Payment verification failed: " ++ e.display, []⟩, s1, Trace.none)
            | .ok _info =>
              match reserve_payment s1 nullifier with
              | .error _ =>
                (.resp ⟨.permissionDenied,
                    "Failed to reserve payment: Zcash error: Payment already reserved",
                    []⟩, s1, ⟨true, false, false⟩)
              | .ok s2 => finish true s2 ⟨true, false, false⟩
          else finish false s1 Trace.none

/-- A concrete 32-byte nullifier used to instantiate theorems on closed
inputs. -/
def sampleNullifier : Nullifier := ⟨List.replicate 32 17⟩

/-- A second, distinct concrete nullifier. -/
def sampleNullifier2 : Nullifier := ⟨List.replicate 32 34⟩

/-- A payment hash satisfying the default thresholds at chain height 105. -/
def validPaymentFields : List (String × String) :=
  [("amount", "1000000"), ("block_height", "100"), ("tx_id", "t"),
    ("used", "false")]

/-- A store holding a valid unused payment for `sampleNullifier`. -/
def happyStore : Store :=
  { Store.empty with
    payments := [("payment:" ++ sampleNullifier.to_hex, validPaymentFields)]
    chainHeight := some "105" }

/-- `happyStore` with a pre-existing reservation on `sampleNullifier`
(held by a concurrent request). -/
def reservedStore : Store :=
  { happyStore with
    reserved := [("reserved:" ++ sampleNullifier.to_hex, 300)] }

/-- A store with no payment record but a readable chain height. -/
def noPaymentStore : Store :=
  { Store.empty with chainHeight := some "105" }

/-- Payment-required configuration with the default thresholds. -/
def happyCfg : PaymentConfig := ⟨true, 100000, 1⟩

/-- Headers carrying a receipt and `sampleNullifier` in hex. -/
def happyHeaders : List (String × String) :=
  [("x-zk-receipt", "aa"), ("x-zk-nullifier", sampleNullifier.to_hex)]

/-- A verifier oracle whose journal nullifier differs from the header's. -/
def mismatchVerify : String → Except GrpcStatus Nullifier :=
  fun _ => .ok sampleNullifier2

/-- A verifier oracle whose journal nullifier equals the header's. -/
def matchVerify : String → Except GrpcStatus Nullifier :=
  fun _ => .ok sampleNullifier

/-! ## Tenant → image registry (`image-id-registry/src/storage.rs`)

The registry keyspace: `deployment:<customer_id>` holds the
JSON-serialized record (serde round-tripping is assumed faithful, so the
record itself is stored), `image_id:<image_id>` holds the reverse
customer id, and `deployments:all` indexes customers. -/

/-- `CustomerDeployment` (timestamps as opaque strings; metadata as the
optional `(use_case, description, version)` triple). -/
structure CustomerDeployment where
  customer_id : String
  image_id : String
  guest_program_path : String
  created_at : String
  metadata : Option (String × String × String)
  deriving DecidableEq, Repr

/-- The registry's slice of the store. -/
structure Registry where
  /-- `deployment:<customer_id>` keys. -/
  deployments : List (String × CustomerDeployment)
  /-- `image_id:<image_id>` reverse keys. -/
  imageIdx : List (String × String)
  /-- The `deployments:all` set. -/
  allSet : List String
  deriving DecidableEq, Repr

/-- The empty registry. -/
def Registry.empty : Registry := ⟨[], [], []⟩

/-- `Storage::register_deployment`: refuse if the customer key exists;
otherwise store the record, index the customer, and set the reverse
`image_id:` key. -/
def register_deployment (r : Registry) (d : CustomerDeployment) :
    Bool × Registry :=
  if (kvGet r.deployments d.customer_id).isSome then (false, r)
  else
    (true,
      { deployments := kvSet r.deployments d.customer_id d
        imageIdx := kvSet r.imageIdx d.image_id d.customer_id
        allSet := setAdd r.allSet d.customer_id })

/-- `Storage::get_deployment`. -/
def get_deployment (r : Registry) (customer_id : String) :
    Option CustomerDeployment :=
  kvGet r.deployments customer_id

/-- `Storage::get_deployment_by_image_id`: reverse key, then forward
lookup. -/
def get_deployment_by_image_id (r : Registry) (image_id : String) :
    Option CustomerDeployment :=
  match kvGet r.imageIdx image_id with
  | some cid => get_deployment r cid
  | none => none

/-- `Storage::update_deployment`: refuse if the customer key is absent;
delete the stale reverse key when the image id changed; store the new
record and reverse key. -/
def update_deployment (r : Registry) (d : CustomerDeployment) :
    Bool × Registry :=
  if (kvGet r.deployments d.customer_id).isSome then
    let r1 :=
      match kvGet r.deployments d.customer_id with
      | some old =>
        if old.image_id ≠ d.image_id then
          { r with imageIdx := kvDel r.imageIdx old.image_id }
        else r
      | none => r
    (true,
      { r1 with
        deployments := kvSet r1.deployments d.customer_id d
        imageIdx := kvSet r1.imageIdx d.image_id d.customer_id })
  else (false, r)

/-- `Storage::delete_deployment`: delete the reverse key of the stored
record (when present), delete the record, and un-index the customer when
something was deleted. -/
def delete_deployment (r : Registry) (customer_id : String) :
    Bool × Registry :=
  let r1 :=
    match kvGet r.deployments customer_id with
    | some dep => { r with imageIdx := kvDel r.imageIdx dep.image_id }
    | none => r
  let deleted := (kvGet r1.deployments customer_id).isSome
  let r2 := { r1 with deployments := kvDel r1.deployments customer_id }
  if deleted then (true, { r2 with allSet := setRem r2.allSet customer_id })
  else (false, r2)

/-- A registry operation. -/
inductive RegOp
  | register (d : CustomerDeployment)
  | update (d : CustomerDeployment)
  | delete (customer_id : String)
  deriving Repr

/-- Apply one operation (failed operations leave the registry as the
source leaves it). -/
def applyRegOp (r : Registry) : RegOp → Registry
  | .register d => (register_deployment r d).2
  | .update d => (update_deployment r d).2
  | .delete c => (delete_deployment r c).2

/-- Run a sequence of operations. -/
def runRegOps (r : Registry) : List RegOp → Registry
  | [] => r
  | op :: ops => runRegOps (applyRegOp r op) ops

/-- Precondition under which an operation keeps the two mappings in
agreement: a register or update must not take over an image id that the
reverse index currently assigns to a different customer. -/
def regOpPre (r : Registry) : RegOp → Bool
  | .register d =>
    match kvGet r.imageIdx d.image_id with
    | some c => c == d.customer_id
    | none => true
  | .update d =>
    match kvGet r.imageIdx d.image_id with
    | some c => c == d.customer_id
    | none => true
  | .delete _ => true

/-- Every operation of the sequence satisfies its precondition at the
registry state where it runs. -/
def validRegSeq : Registry → List RegOp → Bool
  | _, [] => true
  | r, op :: ops => regOpPre r op && validRegSeq (applyRegOp r op) ops

/-- Agreement of forward and reverse mappings: stored records sit under
their own customer id, and the reverse index holds `i ↦ c` exactly when
customer `c`'s record carries image id `i`. -/
def RegInv (r : Registry) : Prop :=
  (∀ c d, kvGet r.deployments c = some d → d.customer_id = c)
  ∧ (∀ i c, kvGet r.imageIdx i = some c ↔
      ∃ d, kvGet r.deployments c = some d ∧ d.image_id = i)

/-- First colliding deployment: customer `c1` with image id `i`. -/
def cexDep1 : CustomerDeployment := ⟨"c1", "i", "p1", "t", none⟩

/-- Second colliding deployment: customer `c2` with the same image id. -/
def cexDep2 : CustomerDeployment := ⟨"c2", "i", "p2", "t", none⟩

/-- The registry after both collide-registrations succeed. -/
def cexRegistry : Registry :=
  (register_deployment (register_deployment Registry.empty cexDep1).2
    cexDep2).2

/-- A valid operation sequence exercising register, update and delete. -/
def witnessRegOps : List RegOp :=
  [.register cexDep1, .update ⟨"c1", "i2", "p1", "t", none⟩,
    .register cexDep2, .delete "c1"]

/-! ## DSL documents (`logic-compiler/src/dsl.rs`)

Schema maps are JSON objects; their entries are modelled as association
lists in an arbitrary but fixed iteration order (the source iterates
`HashMap`s, whose order is likewise unspecified). -/

/-- `ObjectSchema`. -/
structure ObjectSchema where
  type_name : String
  fields : List (String × String)
  deriving DecidableEq, Repr

/-- `InputSchema`: a single object, or a map of named inputs. -/
inductive InputSchema
  | object (o : ObjectSchema)
  | map (m : List (String × ObjectSchema))
  deriving DecidableEq, Repr

/-- `ParamSchema`: a flat name→type map, or an object. -/
inductive ParamSchema
  | map (m : List (String × String))
  | object (o : ObjectSchema)
  deriving DecidableEq, Repr

/-- `ValidationRule`: the six-variant tagged union. -/
inductive ValidationRule
  | SignatureCheck (description field algorithm public_key_param : String)
      (message_fields : List String)
  | RangeCheck (description field : String) (min max : Option Nat)
      (max_param min_param : Option String)
  | AgeVerification (description dob_field : String) (min_age : Option Nat)
      (min_age_param : Option String)
  | BlacklistCheck (description field blacklist_param : String)
  | ArrayIntersectionCheck (description field prohibited_param : String)
      (must_be_empty : Bool)
  | Custom (description code : String)
  deriving DecidableEq, Repr

/-- `BusinessRulesDSL` (the output schema is represented by its
`additional` field map; `compliance_result` is always emitted). -/
structure BusinessRulesDSL where
  use_case : String
  description : String
  version : String
  private_inputs : InputSchema
  public_params : ParamSchema
  validation_rules : List ValidationRule
  outputs_additional : List (String × String)
  deriving Repr

/-! ## DSL validation (`logic-compiler/src/parser.rs`) -/

/-- `DslParser::validate_rule` (error strings abbreviated: the quotes
around interpolated values are dropped). -/
def validate_rule : ValidationRule → Except String Unit
  | .SignatureCheck _ field algorithm public_key_param message_fields =>
    if field = "" then .error "signature_check: field cannot be empty"
    else if algorithm = "" then .error "signature_check: algorithm cannot be empty"
    else if public_key_param = "" then
      .error "signature_check: public_key_param cannot be empty"
    else if message_fields.isEmpty then
      .error "signature_check: message_fields cannot be empty"
    else
      match algorithm with
      | "ed25519" | "ecdsa" | "rsa" => .ok ()
      | _ => .error ("signature_check: unsupported algorithm " ++ algorithm)
  | .RangeCheck _ field min max max_param min_param =>
    if field = "" then .error "range_check: field cannot be empty"
    else if min.isNone && min_param.isNone then
      .error "range_check: must specify either min or min_param"
    else if max.isNone && max_param.isNone then
      .error "range_check: must specify either max or max_param"
    else .ok ()
  | .AgeVerification _ dob_field min_age min_age_param =>
    if dob_field = "" then .error "age_verification: dob_field cannot be empty"
    else if min_age.isNone && min_age_param.isNone then
      .error "age_verification: must specify either min_age or min_age_param"
    else .ok ()
  | .BlacklistCheck _ field blacklist_param =>
    if field = "" then .error "blacklist_check: field cannot be empty"
    else if blacklist_param = "" then
      .error "blacklist_check: blacklist_param cannot be empty"
    else .ok ()
  | .ArrayIntersectionCheck _ field prohibited_param _ =>
    if field = "" then .error "array_intersection_check: field cannot be empty"
    else if prohibited_param = "" then
      .error "array_intersection_check: prohibited_param cannot be empty"
    else .ok ()
  | .Custom _ code =>
    if code = "" then .error "custom: code cannot be empty" else .ok ()

/-! ## Identifier normalization and type generation
(`logic-compiler/src/codegen/type_gen.rs`) -/

/-- Rust `str::to_lowercase` (ASCII suffices for the identifiers at
hand). -/
def rustToLowercase (s : String) : String :=
  String.mk (s.data.map Char.toLower)

/-- Rust `str::replace(c, r)` for a single-character pattern and
replacement. -/
def replaceChar (s : String) (c r : Char) : String :=
  String.mk (s.data.map (fun x => if x = c then r else x))

/-- `to_snake_case`:
`s.to_lowercase().replace('-', "_").replace(' ', "_")` (identical in
`type_gen.rs` and `validation_gen.rs`). -/
def to_snake_case (s : String) : String :=
  replaceChar (replaceChar (rustToLowercase s) '-' '_') ' ' '_'

/-- Capitalize the first character of a word
(`first.to_uppercase() + rest`). -/
def capitalizeWord : List Char → List Char
  | [] => []
  | c :: rest => c.toUpper :: rest

/-- `to_pascal_case`: split on underscores, capitalize each word,
concatenate. -/
def to_pascal_case (s : String) : String :=
  String.mk (((s.data.splitOn '_').map capitalizeWord).flatten)

/-- The concrete Rust types `map_type_string` can produce. -/
inductive RustTy
  | tString
  | tU32
  | tU64
  | tI32
  | tI64
  | tBool
  | tBytes
  | tVecString
  | tVecU32
  | tVecU64
  | tNamed (s : String)
  deriving DecidableEq, Repr

/-- `map_type_string`: the DSL type vocabulary; unknown strings default
to `String` (the warning print is not modelled). -/
def map_type_string : String → RustTy
  | "string" => .tString
  | "u32" => .tU32
  | "u64" => .tU64
  | "i32" => .tI32
  | "i64" => .tI64
  | "bool" => .tBool
  | "bytes" => .tBytes
  | "array<string>" | "array[string]" => .tVecString
  | "array<u32>" | "array[u32]" => .tVecU32
  | "array<u64>" | "array[u64]" => .tVecU64
  | _ => .tString

/-- `generate_fields`: normalize each field name and map its type; no
collision detection of any kind. -/
def generate_fields (fields : List (String × String)) :
    List (String × RustTy) :=
  fields.map (fun p => (to_snake_case p.1, map_type_string p.2))

/-- `generate_private_inputs`: for an object schema, the `PrivateInputs`
fields; for a named-object map, one struct per entry plus wrapper fields
typed by the PascalCase struct names.  Both arms are `Ok`. -/
def generate_private_inputs (schema : InputSchema) :
    Except String
      (List (String × List (String × RustTy)) × List (String × RustTy)) :=
  match schema with
  | .object o => .ok ([], generate_fields o.fields)
  | .map m =>
    .ok (m.map (fun p => (to_pascal_case p.1, generate_fields p.2.fields)),
      m.map (fun p => (to_snake_case p.1, RustTy.tNamed (to_pascal_case p.1))))

/-- `generate_public_params`: both arms are `Ok`. -/
def generate_public_params (schema : ParamSchema) :
    Except String (List (String × RustTy)) :=
  match schema with
  | .map m => .ok (m.map (fun p => (to_snake_case p.1, map_type_string p.2)))
  | .object o => .ok (generate_fields o.fields)

/-- `generate_outputs`: `compliance_result: bool` plus the additional
output fields; always `Ok`. -/
def generate_outputs (additional : List (String × String)) :
    Except String (List (String × RustTy)) :=
  .ok (("compliance_result", RustTy.tBool)
    :: additional.map (fun p => (to_snake_case p.1, map_type_string p.2)))

/-- The field-level content of `generate_types`' output. -/
structure GeneratedTypes where
  namedStructs : List (String × List (String × RustTy))
  privateFields : List (String × RustTy)
  paramFields : List (String × RustTy)
  outputFields : List (String × RustTy)
  deriving DecidableEq, Repr

/-- `generate_types`: sequence the three generators, propagating errors
with `?` (none can occur). -/
def generate_types (dsl : BusinessRulesDSL) : Except String GeneratedTypes :=
  match generate_private_inputs dsl.private_inputs with
  | .error e => .error e
  | .ok pi =>
    match generate_public_params dsl.public_params with
    | .error e => .error e
    | .ok pp =>
      match generate_outputs dsl.outputs_additional with
      | .error e => .error e
      | .ok outs => .ok ⟨pi.1, pi.2, pp, outs⟩

/-! ## Validation code generation
(`logic-compiler/src/codegen/validation_gen.rs`)

The `quote!` blocks are modelled as flat token lists: identifiers (Rust
keywords included), numeric / string / boolean literals, punctuation
(braces written as characters 7b/7d), and an opaque `raw` token standing
for a custom rule's code fragment parsed as a `TokenStream` (the
`quote! \x7b true \x7d` fallback for an unparsable fragment is not
modelled).  Comments inside `quote!` vanish at tokenization and are not
represented.  The `prettyplease` formatting pass re-parses and
pretty-prints the token stream and is content-preserving, so the
theorems are stated on the token stream. -/

/-- A Rust token of the generated stream. -/
inductive Tok
  | ident (s : String)
  | litNat (n : Nat)
  | litStr (s : String)
  | litBool (b : Bool)
  | punct (s : String)
  | raw (s : String)
  deriving DecidableEq, Repr

/-- `format_ident(&to_snake_case(s))` (the `r#` fallback for keyword
collisions is folded into the identifier). -/
def snakeIdent (s : String) : Tok := .ident (to_snake_case s)

/-- `generate_validation_rule`: the per-variant `quote!` block as a
token list. -/
def generate_validation_rule : ValidationRule → List Tok
  | .SignatureCheck _ field algorithm public_key_param message_fields =>
    [.punct "\x7b", .ident "let", .ident "mut", .ident "message", .punct "=",
      .ident "Vec", .punct "::", .ident "new", .punct "(", .punct ")",
      .punct ";"]
    ++ (message_fields.flatMap fun f =>
      [.ident "message", .punct ".", .ident "extend_from_slice", .punct "(",
        .ident "private_inputs", .punct ".", snakeIdent f, .punct ".",
        .ident "as_bytes", .punct "(", .punct ")", .punct ")", .punct ";"])
    ++ [.ident "let", .ident "signature", .punct "=", .punct "&",
      .ident "private_inputs", .punct ".", snakeIdent field, .punct ";",
      .ident "let", .ident "public_key", .punct "=", .punct "&",
      .ident "public_params", .punct ".", snakeIdent public_key_param,
      .punct ";",
      .ident "let", .ident "signature_valid", .punct "=",
      .ident "verify_signature_placeholder", .punct "(", .punct "&",
      .ident "message", .punct ",", .ident "signature", .punct ",",
      .ident "public_key", .punct ",", .litStr algorithm, .punct ")",
      .punct ";",
      .ident "if", .punct "!", .ident "signature_valid", .punct "\x7b",
      .ident "return", .ident "false", .punct ";", .punct "\x7d",
      .punct "\x7d"]
  | .RangeCheck _ field min max max_param min_param =>
    [.punct "\x7b"]
    ++ (match min with
      | some v => [.ident "let", .ident "min_value", .punct "=", .litNat v,
          .punct ";"]
      | none =>
        match min_param with
        | some p => [.ident "let", .ident "min_value", .punct "=",
            .ident "public_params", .punct ".", snakeIdent p, .punct ";"]
        | none => [.ident "let", .ident "min_value", .punct "=", .litNat 0,
            .punct ";"])
    ++ (match max with
      | some v => [.ident "let", .ident "max_value", .punct "=", .litNat v,
          .punct ";"]
      | none =>
        match max_param with
        | some p => [.ident "let", .ident "max_value", .punct "=",
            .ident "public_params", .punct ".", snakeIdent p, .punct ";"]
        | none => [.ident "let", .ident "max_value", .punct "=",
            .ident "u64", .punct "::", .ident "MAX", .punct ";"])
    ++ [.ident "let", .ident "value", .punct "=", .ident "private_inputs",
      .punct ".", snakeIdent field, .punct ";",
      .ident "if", .ident "value", .punct "<", .ident "min_value",
      .punct "||", .ident "value", .punct ">", .ident "max_value",
      .punct "\x7b", .ident "return", .ident "false", .punct ";",
      .punct "\x7d", .punct "\x7d"]
  | .AgeVerification _ dob_field min_age min_age_param =>
    [.punct "\x7b"]
    ++ (match min_age with
      | some v => [.ident "let", .ident "min_age", .punct "=", .litNat v,
          .punct ";"]
      | none =>
        match min_age_param with
        | some p => [.ident "let", .ident "min_age", .punct "=",
            .ident "public_params", .punct ".", snakeIdent p, .punct ";"]
        | none => [.ident "let", .ident "min_age", .punct "=", .litNat 18,
            .punct ";"])
    ++ [.ident "let", .ident "dob", .punct "=", .punct "&",
      .ident "private_inputs", .punct ".", snakeIdent dob_field, .punct ";",
      .ident "let", .ident "age", .punct "=", .ident "calculate_age",
      .punct "(", .ident "dob", .punct ")", .punct ";",
      .ident "if", .ident "age", .punct "<", .ident "min_age", .punct "\x7b",
      .ident "return", .ident "false", .punct ";", .punct "\x7d",
      .punct "\x7d"]
  | .BlacklistCheck _ field blacklist_param =>
    [.punct "\x7b", .ident "let", .ident "value", .punct "=", .punct "&",
      .ident "private_inputs", .punct ".", snakeIdent field, .punct ";",
      .ident "let", .ident "blacklist", .punct "=", .punct "&",
      .ident "public_params", .punct ".", snakeIdent blacklist_param,
      .punct ";",
      .ident "if", .ident "blacklist", .punct ".", .ident "contains",
      .punct "(", .ident "value", .punct ")", .punct "\x7b",
      .ident "return", .ident "false", .punct ";", .punct "\x7d",
      .punct "\x7d"]
  | .ArrayIntersectionCheck _ field prohibited_param must_be_empty =>
    [.punct "\x7b", .ident "let", .ident "items", .punct "=", .punct "&",
      .ident "private_inputs", .punct ".", snakeIdent field, .punct ";",
      .ident "let", .ident "prohibited", .punct "=", .punct "&",
      .ident "public_params", .punct ".", snakeIdent prohibited_param,
      .punct ";",
      .ident "let", .ident "has_intersection", .punct "=", .ident "items",
      .punct ".", .ident "iter", .punct "(", .punct ")", .punct ".",
      .ident "any", .punct "(", .punct "|", .ident "item", .punct "|",
      .ident "prohibited", .punct ".", .ident "contains", .punct "(",
      .ident "item", .punct ")", .punct ")", .punct ";",
      .ident "if", .litBool must_be_empty, .punct "&&",
      .ident "has_intersection", .punct "\x7b", .ident "return",
      .ident "false", .punct ";", .punct "\x7d", .punct "\x7d"]
  | .Custom _ code =>
    [.punct "\x7b", .ident "let", .ident "result", .punct "=", .raw code,
      .punct ";", .ident "if", .punct "!", .ident "result", .punct "\x7b",
      .ident "return", .ident "false", .punct ";", .punct "\x7d",
      .punct "\x7d"]

/-- The tokens of `validate_all` preceding the rule translations: the
doc attribute, the signature, and the opening brace. -/
def validateAllHeader : List Tok :=
  [.punct "#", .punct "[", .ident "doc", .punct "=",
    .litStr " Perform all validation checks", .punct "]",
    .ident "fn", .ident "validate_all", .punct "(",
    .ident "private_inputs", .punct ":", .punct "&", .ident "PrivateInputs",
    .punct ",",
    .ident "public_params", .punct ":", .punct "&", .ident "PublicParams",
    .punct ",",
    .punct ")", .punct "->", .ident "bool", .punct "\x7b"]

/-- `generate_validations`: the `validate_all` token stream — header,
then the rule translations concatenated in document order
(`#(#validation_checks)*`), then `true` and the closing brace. -/
def generate_validations (dsl : BusinessRulesDSL) : List Tok :=
  validateAllHeader
    ++ (dsl.validation_rules.map generate_validation_rule).flatten
    ++ [.ident "true", .punct "\x7d"]

/-- Offset of the `i`-th rule's translation inside
`generate_validations`. -/
def ruleOffset (dsl : BusinessRulesDSL) (i : Nat) : Nat :=
  validateAllHeader.length
    + ((((dsl.validation_rules.map generate_validation_rule).map
        List.length).take i).sum)

/-- A DSL document with a colliding pair of private-input field names. -/
def cexDsl : BusinessRulesDSL :=
  ⟨"uc", "", "1.0", .object ⟨"object", [("Age", "u32"), ("age", "u32")]⟩,
    .map [], [.Custom "" "true"], []⟩

/-- A two-rule DSL document for instantiating the ordering theorem. -/
def c7Dsl : BusinessRulesDSL :=
  ⟨"uc", "", "1.0", .object ⟨"object", [("q", "u64")]⟩, .map [],
    [.RangeCheck "" "q" (some 1) (some 9) none none,
      .AgeVerification "" "dob" (some 18) none], []⟩

/-! ## Key-value lemmas -/

theorem kvGet_set_self {α : Type} (l : List (String × α)) (k : String) (v : α) :
    kvGet (kvSet l k v) k = some v := by
  simp [kvSet, kvGet]

theorem kvGet_del {α : Type} (l : List (String × α)) (k q : String) :
    kvGet (kvDel l k) q = if q = k then none else kvGet l q := by
  induction l with
  | nil => simp [kvDel, kvGet]
  | cons p rest ih =>
    obtain ⟨k', v⟩ := p
    by_cases hp : k' = k
    · by_cases hq : q = k
      · have ih' : kvGet (kvDel rest k) q = none := by rw [ih, if_pos hq]
        simp [kvDel, hp, hq, ih'] at *
        assumption
      · have hqk : ¬ q = k' := by rw [hp]; exact hq
        simp [kvDel, kvGet, hp, hq, hqk, ih]
    · by_cases hq : q = k'
      · have hqk : ¬ q = k := by rw [hq]; exact hp
        simp [kvDel, kvGet, hp, hq, hqk]
      · simp [kvDel, kvGet, hp, hq, ih]

theorem kvGet_set {α : Type} (l : List (String × α)) (k q : String) (v : α) :
    kvGet (kvSet l k v) q = if q = k then some v else kvGet l q := by
  by_cases h : q = k
  · subst h; simp [kvGet_set_self]
  · simp [kvSet, kvGet, h, kvGet_del]

/-! ## C1 — replay protection of the nullifier index -/

/-- C1: for every store state and nullifier, `check_and_set` returns true
iff the key `nullifier:<hex(n)>` is absent from the index; when it returns
true it creates that key with the 30-day (2592000 s) expiry, and a
subsequent `check_and_set` of the same nullifier returns false. -/
theorem check_and_set_spec (s : Store) (n : Nullifier) :
    ((check_and_set s n).1 = true ↔
      kvGet s.nullifiers ("nullifier:" ++ n.to_hex) = none)
    ∧ ((check_and_set s n).1 = true →
      kvGet (check_and_set s n).2.nullifiers ("nullifier:" ++ n.to_hex)
          = some nullifierTtlSecs
        ∧ nullifierTtlSecs = 30 * 24 * 60 * 60
        ∧ (check_and_set (check_and_set s n).2 n).1 = false) := by
  cases h : kvGet s.nullifiers ("nullifier:" ++ n.to_hex) with
  | some v => simp [check_and_set, h]
  | none =>
    refine ⟨by simp [check_and_set, h], fun _ => ⟨?_, by norm_num [nullifierTtlSecs], ?_⟩⟩
    · simp [check_and_set, h, kvGet_set_self]
    · simp [check_and_set, h, kvGet_set_self]

/-- Closed instance of `check_and_set_spec` on the empty store. -/
theorem check_and_set_spec_witness :
    (check_and_set Store.empty sampleNullifier).1 = true
    ∧ (check_and_set (check_and_set Store.empty sampleNullifier).2
        sampleNullifier).1 = false := by
  have h := check_and_set_spec Store.empty sampleNullifier
  have h1 : (check_and_set Store.empty sampleNullifier).1 = true := h.1.mpr rfl
  exact ⟨h1, (h.2 h1).2.2⟩

/-! ## C2 — `check_payment` acceptance conditions and error order -/

/-- C2: with a readable chain height, `check_payment` returns the parsed
payment info iff the record exists, is unused, is unreserved, meets the
minimum amount, and has enough confirmations (`chain_height −
block_height` saturating at zero); each failing condition, tested in that
order, yields its own error, with `reserved` distinct from
`alreadyUsed`. -/
theorem check_payment_spec (cfg : PaymentConfig) (s : Store) (n : Nullifier)
    (ch : Nat) (hch : get_current_block_height s = some ch) :
    (kvGet s.payments ("payment:" ++ n.to_hex) = none →
      check_payment cfg s n = .error .notFound)
    ∧ (∀ fields, kvGet s.payments ("payment:" ++ n.to_hex) = some fields →
      ∀ info, parse_payment_fields fields = .ok info →
      ((check_payment cfg s n = .ok info) ↔
        (info.used = false
          ∧ kvGet s.reserved ("reserved:" ++ n.to_hex) = none
          ∧ cfg.minPaymentAmount ≤ info.amount
          ∧ cfg.minConfirmations ≤ ch - info.block_height))
      ∧ (info.used = true → check_payment cfg s n = .error .alreadyUsed)
      ∧ (info.used = false →
          (kvGet s.reserved ("reserved:" ++ n.to_hex)).isSome →
          check_payment cfg s n = .error .reserved)
      ∧ (info.used = false →
          kvGet s.reserved ("reserved:" ++ n.to_hex) = none →
          info.amount < cfg.minPaymentAmount →
          check_payment cfg s n
            = .error (.belowMinimum info.amount cfg.minPaymentAmount))
      ∧ (info.used = false →
          kvGet s.reserved ("reserved:" ++ n.to_hex) = none →
          cfg.minPaymentAmount ≤ info.amount →
          ch - info.block_height < cfg.minConfirmations →
          check_payment cfg s n
            = .error (.insufficientConfirmations (ch - info.block_height)
                cfg.minConfirmations)))
    ∧ PayErr.reserved ≠ PayErr.alreadyUsed := by
  refine ⟨fun h0 => by simp [check_payment, h0], ?_, by simp⟩
  intro fields hf info hinfo
  rcases Bool.eq_false_or_eq_true info.used with hused | hused
  case inl =>
    have herr : check_payment cfg s n = .error .alreadyUsed := by
      simp [check_payment, hf, hinfo, hused]
    exact ⟨⟨fun h => by rw [herr] at h; simp at h,
        fun hc => absurd hc.1 (by simp [hused])⟩,
      fun _ => herr,
      fun h => absurd h (by simp [hused]),
      fun h => absurd h (by simp [hused]),
      fun h => absurd h (by simp [hused])⟩
  case inr =>
    rcases Option.eq_none_or_eq_some (kvGet s.reserved ("reserved:" ++ n.to_hex))
      with hres | ⟨t, hres⟩
    case inr =>
      have herr : check_payment cfg s n = .error .reserved := by
        simp [check_payment, hf, hinfo, hused, hres]
      exact ⟨⟨fun h => by rw [herr] at h; simp at h,
          fun hc => by rw [hc.2.1] at hres; simp at hres⟩,
        fun h => absurd h (by simp [hused]),
        fun _ _ => herr,
        fun _ hnone => by rw [hnone] at hres; simp at hres,
        fun _ hnone => by rw [hnone] at hres; simp at hres⟩
    case inl =>
      by_cases hamt : info.amount < cfg.minPaymentAmount
      · have herr : check_payment cfg s n
            = .error (.belowMinimum info.amount cfg.minPaymentAmount) := by
          simp [check_payment, hf, hinfo, hused, hres, hamt]
        exact ⟨⟨fun h => by rw [herr] at h; simp at h,
            fun hc => absurd hamt (not_lt.mpr hc.2.2.1)⟩,
          fun h => absurd h (by simp [hused]),
          fun _ hs => by rw [hres] at hs; simp at hs,
          fun _ _ _ => herr,
          fun _ _ hge _ => absurd hamt (not_lt.mpr hge)⟩
      · by_cases hconf : ch - info.block_height < cfg.minConfirmations
        · have herr : check_payment cfg s n
              = .error (.insufficientConfirmations (ch - info.block_height)
                  cfg.minConfirmations) := by
            simp [check_payment, hf, hinfo, hused, hres, hamt, hch, hconf]
          exact ⟨⟨fun h => by rw [herr] at h; simp at h,
              fun hc => absurd hconf (not_lt.mpr hc.2.2.2)⟩,
            fun h => absurd h (by simp [hused]),
            fun _ hs => by rw [hres] at hs; simp at hs,
            fun _ _ h => absurd h hamt,
            fun _ _ _ _ => herr⟩
        · have hok : check_payment cfg s n = .ok info := by
            simp [check_payment, hf, hinfo, hused, hres, hamt, hch, hconf]
          exact ⟨⟨fun _ => ⟨hused, hres, not_lt.mp hamt, not_lt.mp hconf⟩,
              fun _ => hok⟩,
            fun h => absurd h (by simp [hused]),
            fun _ hs => by rw [hres] at hs; simp at hs,
            fun _ _ h => absurd h hamt,
            fun _ _ _ h => absurd h hconf⟩

/-- Closed instance of `check_payment_spec`: a store with a valid payment
record and chain height 105 accepts the payment. -/
theorem check_payment_spec_witness :
    get_current_block_height
        { Store.empty with
          payments := [("payment:" ++ sampleNullifier.to_hex,
            [("amount", "1000000"), ("block_height", "100"), ("tx_id", "t"),
              ("used", "false")])]
          chainHeight := some "105" } = some 105
    ∧ check_payment ⟨true, 100000, 1⟩
        { Store.empty with
          payments := [("payment:" ++ sampleNullifier.to_hex,
            [("amount", "1000000"), ("block_height", "100"), ("tx_id", "t"),
              ("used", "false")])]
          chainHeight := some "105" } sampleNullifier
      = .ok ⟨1000000, 100, false, "t"⟩ := by
  refine ⟨by decide, ?_⟩
  have h := (check_payment_spec ⟨true, 100000, 1⟩
    { Store.empty with
      payments := [("payment:" ++ sampleNullifier.to_hex,
        [("amount", "1000000"), ("block_height", "100"), ("tx_id", "t"),
          ("used", "false")])]
      chainHeight := some "105" } sampleNullifier 105 (by decide)).2.1
  exact ((h _ rfl ⟨1000000, 100, false, "t"⟩ rfl).1).mpr
    (by refine ⟨rfl, rfl, by norm_num, by norm_num⟩)

/-! ## C10 — totality and defaults of `parse_payment_fields` -/

/-- C10: `parse_payment_fields` always succeeds; missing or unparsable
`amount`/`block_height` default to 0, missing `tx_id` to the empty
string, and `used` is true exactly when the field is present and equals
the string `"true"`; hence `check_payment` never reports "already used"
for a record whose `used` field is absent or spelled differently. -/
theorem parse_payment_fields_spec (fields : List (String × String)) :
    ∃ info, parse_payment_fields fields = .ok info
      ∧ ((kvGetLast fields "amount").bind (rustParseNat (2 ^ 64)) = none →
          info.amount = 0)
      ∧ ((kvGetLast fields "block_height").bind (rustParseNat (2 ^ 32)) = none →
          info.block_height = 0)
      ∧ (kvGetLast fields "tx_id" = none → info.tx_id = "")
      ∧ (info.used = true ↔ kvGetLast fields "used" = some "true")
      ∧ (∀ cfg s n, kvGet s.payments ("payment:" ++ n.to_hex) = some fields →
          kvGetLast fields "used" ≠ some "true" →
          check_payment cfg s n ≠ .error PayErr.alreadyUsed) := by
  refine ⟨_, rfl, ?_, ?_, ?_, ?_, ?_⟩
  · intro h
    simp only [paymentInfoOfFields]
    cases hu : kvGetLast fields "amount" with
    | none => simp [hu]
    | some v =>
      have hb : (some v).bind (rustParseNat (2 ^ 64))
          = rustParseNat (2 ^ 64) v := rfl
      rw [hu, hb] at h
      show ((some v).bind (rustParseNat (2 ^ 64))).getD 0 = 0
      rw [hb, h]
      rfl
  · intro h
    simp only [paymentInfoOfFields]
    cases hu : kvGetLast fields "block_height" with
    | none => simp [hu]
    | some v =>
      have hb : (some v).bind (rustParseNat (2 ^ 32))
          = rustParseNat (2 ^ 32) v := rfl
      rw [hu, hb] at h
      show ((some v).bind (rustParseNat (2 ^ 32))).getD 0 = 0
      rw [hb, h]
      rfl
  · intro h
    simp only [paymentInfoOfFields]
    simp [h]
  · simp only [paymentInfoOfFields]
    cases hu : kvGetLast fields "used" with
    | none => simp [hu]
    | some u =>
      have hm : ((some u).map (fun s => s == "true")).getD false
          = (u == "true") := rfl
      rw [hm]
      constructor
      · intro h
        have hu2 : u = "true" := by simpa using h
        rw [hu2]
      · intro h
        have hu2 : u = "true" := Option.some.inj h
        rw [hu2]
        rfl
  · intro cfg s n hf hne
    have hused : (((kvGetLast fields "used").map (fun s => s == "true")).getD false)
        = false := by
      cases hu : kvGetLast fields "used" with
      | none => simp
      | some u =>
        have hm : ((some u).map (fun s => s == "true")).getD false
            = (u == "true") := rfl
        rw [hm]
        have hne2 : u ≠ "true" := fun he => hne (by rw [hu, he])
        exact beq_eq_false_iff_ne.mpr hne2
    intro heq
    simp only [check_payment, hf, parse_payment_fields, paymentInfoOfFields] at heq
    simp only [hused] at heq
    simp only [Bool.false_eq_true, if_false] at heq
    split at heq
    all_goals try split at heq
    all_goals try split at heq
    all_goals try split at heq
    all_goals simp at heq

/-! ## Admission-controller lemmas -/

theorem check_and_set_of_fresh (s : Store) (n : Nullifier)
    (hfresh : kvGet s.nullifiers ("nullifier:" ++ n.to_hex) = none) :
    check_and_set s n
      = (true,
        { s with
          nullifiers :=
            kvSet s.nullifiers ("nullifier:" ++ n.to_hex) nullifierTtlSecs }) := by
  simp [check_and_set, hfresh]

theorem check_payment_ok_not_reserved (cfg : PaymentConfig) (s : Store)
    (n : Nullifier) (info : PaymentInfo)
    (h : check_payment cfg s n = .ok info) :
    kvGet s.reserved ("reserved:" ++ n.to_hex) = none := by
  rcases Option.eq_none_or_eq_some (kvGet s.reserved ("reserved:" ++ n.to_hex))
    with h0 | ⟨t, h0⟩
  · exact h0
  · exfalso
    rcases Option.eq_none_or_eq_some (kvGet s.payments ("payment:" ++ n.to_hex))
      with hp | ⟨fields, hp⟩
    · simp [check_payment, hp] at h
    · rcases Bool.eq_false_or_eq_true (paymentInfoOfFields fields).used
        with hb | hb
      · simp [check_payment, parse_payment_fields, hp, hb] at h
      · simp [check_payment, parse_payment_fields, hp, hb, h0] at h

/-! ## C3 — nullifier mismatch denies and releases the reservation -/

/-- C3: when the verifier succeeds but its nullifier differs
byte-for-byte from the header nullifier, `check` answers
PermissionDenied with the nullifier-mismatch message, and
`release_reservation` is attempted exactly when a reservation was taken
(i.e. when payment is required). -/
theorem svcCheck_nullifier_mismatch (cfg : PaymentConfig)
    (verifyProof : String → Except GrpcStatus Nullifier)
    (confirmFails : Bool) (now : String) (s : Store)
    (headers : List (String × String)) (receiptHex nullifierHex : String)
    (n vn : Nullifier)
    (hr : kvGet headers "x-zk-receipt" = some receiptHex)
    (hn : kvGet headers "x-zk-nullifier" = some nullifierHex)
    (hparse : Nullifier.from_hex nullifierHex = some n)
    (hfresh : kvGet s.nullifiers ("nullifier:" ++ n.to_hex) = none)
    (hpay : cfg.requirePayment = true →
      ∃ info, check_payment cfg s n = .ok info)
    (hver : verifyProof receiptHex = .ok vn)
    (hmismatch : vn.bytes ≠ n.bytes) :
    (svcCheck cfg verifyProof confirmFails now s headers).1
      = .resp ⟨.permissionDenied,
          "Nullifier mismatch between header and proof", []⟩
    ∧ (svcCheck cfg verifyProof confirmFails now s headers).2.2.releaseAttempted
      = cfg.requirePayment := by
  have hcas := check_and_set_of_fresh s n hfresh
  have h1 : (check_and_set s n).1 = true := by rw [hcas]
  rcases Bool.eq_false_or_eq_true cfg.requirePayment with hreq | hreq
  case inr => simp [svcCheck, hr, hn, hparse, h1, hreq, hver, hmismatch]
  case inl =>
    obtain ⟨info, hcp⟩ := hpay hreq
    have hres0 : kvGet s.reserved ("reserved:" ++ n.to_hex) = none :=
      check_payment_ok_not_reserved cfg s n info hcp
    have hcp1 : check_payment cfg (check_and_set s n).2 n = .ok info := by
      rw [hcas]; exact hcp
    have hrsv : reserve_payment (check_and_set s n).2 n
        = .ok
          { (check_and_set s n).2 with
            reserved := kvSet (check_and_set s n).2.reserved
                ("reserved:" ++ n.to_hex) reservationTtlSecs
            reservedSet := setAdd (check_and_set s n).2.reservedSet n.to_hex } := by
      rw [hcas]
      simp [reserve_payment, hres0]
    simp [svcCheck, hr, hn, hparse, h1, hreq, hcp1, hrsv, hver, hmismatch]

/-- Closed instance of `svcCheck_nullifier_mismatch` on a payment-backed
request whose verifier returns a different nullifier. -/
theorem svcCheck_nullifier_mismatch_witness :
    (svcCheck happyCfg mismatchVerify false "ts" happyStore happyHeaders).1
      = .resp ⟨.permissionDenied,
          "Nullifier mismatch between header and proof", []⟩
    ∧ (svcCheck happyCfg mismatchVerify false "ts" happyStore
        happyHeaders).2.2.releaseAttempted = happyCfg.requirePayment :=
  svcCheck_nullifier_mismatch happyCfg mismatchVerify false "ts" happyStore
    happyHeaders "aa" sampleNullifier.to_hex sampleNullifier sampleNullifier2
    rfl rfl rfl rfl
    (fun _ => ⟨paymentInfoOfFields validPaymentFields, rfl⟩) rfl (by decide)

/-! ## C4 — effects of a payment-check denial -/

/-- C4 (amended): a fresh, well-formed request denied by `check_payment`
answers PermissionDenied with the payment-failure message; the nullifier
index key has been created by the replay guard, and the reservation
state of the store is unchanged — the request takes no reservation, and
a pre-existing reservation (the `reserved` denial case) remains. -/
theorem svcCheck_payment_denied_effects (cfg : PaymentConfig)
    (verifyProof : String → Except GrpcStatus Nullifier)
    (confirmFails : Bool) (now : String) (s : Store)
    (headers : List (String × String)) (receiptHex nullifierHex : String)
    (n : Nullifier) (e : PayErr)
    (hr : kvGet headers "x-zk-receipt" = some receiptHex)
    (hn : kvGet headers "x-zk-nullifier" = some nullifierHex)
    (hparse : Nullifier.from_hex nullifierHex = some n)
    (hfresh : kvGet s.nullifiers ("nullifier:" ++ n.to_hex) = none)
    (hreq : cfg.requirePayment = true)
    (hcp : check_payment cfg s n = .error e) :
    (svcCheck cfg verifyProof confirmFails now s headers).1
      = .resp ⟨.permissionDenied,
          "Payment verification failed: " ++ e.display, []⟩
    ∧ kvGet (svcCheck cfg verifyProof confirmFails now s headers).2.1.nullifiers
        ("nullifier:" ++ n.to_hex) = some nullifierTtlSecs
    ∧ (svcCheck cfg verifyProof confirmFails now s headers).2.1.reserved
      = s.reserved
    ∧ (svcCheck cfg verifyProof confirmFails now s headers).2.1.reservedSet
      = s.reservedSet := by
  have hcas := check_and_set_of_fresh s n hfresh
  have h1 : (check_and_set s n).1 = true := by rw [hcas]
  have hcp1 : check_payment cfg (check_and_set s n).2 n = .error e := by
    rw [hcas]; exact hcp
  have hout : svcCheck cfg verifyProof confirmFails now s headers
      = (.resp ⟨.permissionDenied,
          "Payment verification failed: " ++ e.display, []⟩,
        (check_and_set s n).2, Trace.none) := by
    simp [svcCheck, hr, hn, hparse, h1, hreq, hcp1]
  rw [hout, hcas]
  refine ⟨rfl, ?_, rfl, rfl⟩
  simp [kvGet_set_self]

/-- Closed instance of `svcCheck_payment_denied_effects`: no payment
record exists, the request is denied, yet the nullifier key is created
and no reservation appears. -/
theorem svcCheck_payment_denied_effects_witness :
    (svcCheck happyCfg mismatchVerify false "ts" noPaymentStore
        happyHeaders).1
      = .resp ⟨.permissionDenied,
          "Payment verification failed: Zcash error: Payment not found", []⟩
    ∧ kvGet (svcCheck happyCfg mismatchVerify false "ts" noPaymentStore
          happyHeaders).2.1.nullifiers
        ("nullifier:" ++ sampleNullifier.to_hex) = some nullifierTtlSecs
    ∧ (svcCheck happyCfg mismatchVerify false "ts" noPaymentStore
          happyHeaders).2.1.reserved = noPaymentStore.reserved
    ∧ (svcCheck happyCfg mismatchVerify false "ts" noPaymentStore
          happyHeaders).2.1.reservedSet = noPaymentStore.reservedSet :=
  svcCheck_payment_denied_effects happyCfg mismatchVerify false "ts"
    noPaymentStore happyHeaders "aa" sampleNullifier.to_hex sampleNullifier
    PayErr.notFound rfl rfl rfl rfl rfl rfl

/-- Counterexample to C4 as stated: a request denied because the payment
is reserved by a concurrent holder leaves that reservation in the store. -/
theorem svcCheck_payment_denied_reservation_cex :
    (svcCheck happyCfg mismatchVerify false "ts" reservedStore
        happyHeaders).1
      = .resp ⟨.permissionDenied,
          "Payment verification failed: Zcash error: Payment is reserved by another request",
          []⟩
    ∧ kvGet (svcCheck happyCfg mismatchVerify false "ts" reservedStore
          happyHeaders).2.1.reserved
        ("reserved:" ++ sampleNullifier.to_hex) = some 300 :=
  ⟨rfl, rfl⟩

/-! ## C5 — confirmation failure is non-fatal -/

/-- C5: a request passing replay, payment, verification and
nullifier-consistency checks answers OK with the
`x-payment-nullifier` metadata, whether or not `confirm_payment`
fails. -/
theorem svcCheck_confirm_failure_nonfatal (cfg : PaymentConfig)
    (verifyProof : String → Except GrpcStatus Nullifier)
    (now : String) (s : Store) (headers : List (String × String))
    (receiptHex nullifierHex : String) (n vn : Nullifier)
    (hr : kvGet headers "x-zk-receipt" = some receiptHex)
    (hn : kvGet headers "x-zk-nullifier" = some nullifierHex)
    (hparse : Nullifier.from_hex nullifierHex = some n)
    (hfresh : kvGet s.nullifiers ("nullifier:" ++ n.to_hex) = none)
    (hpay : cfg.requirePayment = true →
      ∃ info, check_payment cfg s n = .ok info)
    (hver : verifyProof receiptHex = .ok vn)
    (hbytes : vn.bytes = n.bytes) :
    ∀ confirmFails : Bool,
      (svcCheck cfg verifyProof confirmFails now s headers).1
        = .resp ⟨.ok, "Proof verified successfully",
            [("x-payment-nullifier", n.to_hex)]⟩ := by
  intro confirmFails
  have hcas := check_and_set_of_fresh s n hfresh
  have h1 : (check_and_set s n).1 = true := by rw [hcas]
  rcases Bool.eq_false_or_eq_true cfg.requirePayment with hreq | hreq
  case inr => simp [svcCheck, hr, hn, hparse, h1, hreq, hver, hbytes]
  case inl =>
    obtain ⟨info, hcp⟩ := hpay hreq
    have hres0 : kvGet s.reserved ("reserved:" ++ n.to_hex) = none :=
      check_payment_ok_not_reserved cfg s n info hcp
    have hcp1 : check_payment cfg (check_and_set s n).2 n = .ok info := by
      rw [hcas]; exact hcp
    have hrsv : reserve_payment (check_and_set s n).2 n
        = .ok
          { (check_and_set s n).2 with
            reserved := kvSet (check_and_set s n).2.reserved
                ("reserved:" ++ n.to_hex) reservationTtlSecs
            reservedSet := setAdd (check_and_set s n).2.reservedSet n.to_hex } := by
      rw [hcas]
      simp [reserve_payment, hres0]
    simp [svcCheck, hr, hn, hparse, h1, hreq, hcp1, hrsv, hver, hbytes]

/-- Closed instance of `svcCheck_confirm_failure_nonfatal` for both
values of the confirmation-failure flag. -/
theorem svcCheck_confirm_failure_nonfatal_witness :
    (svcCheck happyCfg matchVerify true "ts" happyStore happyHeaders).1
      = .resp ⟨.ok, "Proof verified successfully",
          [("x-payment-nullifier", sampleNullifier.to_hex)]⟩
    ∧ (svcCheck happyCfg matchVerify false "ts" happyStore happyHeaders).1
      = .resp ⟨.ok, "Proof verified successfully",
          [("x-payment-nullifier", sampleNullifier.to_hex)]⟩ :=
  have h := svcCheck_confirm_failure_nonfatal happyCfg matchVerify "ts"
    happyStore happyHeaders "aa" sampleNullifier.to_hex sampleNullifier
    sampleNullifier rfl rfl rfl rfl
    (fun _ => ⟨paymentInfoOfFields validPaymentFields, rfl⟩) rfl rfl
  ⟨h true, h false⟩

theorem kvGet_set_ne {α : Type} (l : List (String × α)) (k q : String) (v : α)
    (h : q ≠ k) : kvGet (kvSet l k v) q = kvGet l q := by
  rw [kvGet_set, if_neg h]

theorem kvGet_del_self {α : Type} (l : List (String × α)) (k : String) :
    kvGet (kvDel l k) k = none := by
  rw [kvGet_del, if_pos rfl]

theorem kvGet_del_ne {α : Type} (l : List (String × α)) (k q : String)
    (h : q ≠ k) : kvGet (kvDel l k) q = kvGet l q := by
  rw [kvGet_del, if_neg h]

/-! ## Registry invariant preservation -/

theorem regInv_register (r : Registry) (d : CustomerDeployment)
    (hinv : RegInv r) (hpre : regOpPre r (.register d) = true) :
    RegInv (register_deployment r d).2 := by
  rcases Option.eq_none_or_eq_some (kvGet r.deployments d.customer_id)
    with hc | ⟨old, hc⟩
  case inr =>
    have hfail : register_deployment r d = (false, r) := by
      simp [register_deployment, hc]
    rw [hfail]
    exact hinv
  case inl =>
    have himg : kvGet r.imageIdx d.image_id = none := by
      rcases Option.eq_none_or_eq_some (kvGet r.imageIdx d.image_id)
        with h | ⟨c, h⟩
      · exact h
      · exfalso
        have hcid : c = d.customer_id := by
          have hp := hpre
          simp only [regOpPre, h] at hp
          exact eq_of_beq hp
        obtain ⟨d', hd', _⟩ := (hinv.2 d.image_id c).mp h
        rw [hcid, hc] at hd'
        exact Option.noConfusion hd'
    have hreg : register_deployment r d
        = (true,
          { deployments := kvSet r.deployments d.customer_id d
            imageIdx := kvSet r.imageIdx d.image_id d.customer_id
            allSet := setAdd r.allSet d.customer_id }) := by
      simp [register_deployment, hc]
    rw [hreg]
    constructor
    · intro c dd hdd
      by_cases hcc : c = d.customer_id
      · rw [kvGet_set, if_pos hcc] at hdd
        rw [← Option.some.inj hdd, hcc]
      · rw [kvGet_set_ne _ _ _ _ hcc] at hdd
        exact hinv.1 c dd hdd
    · intro i c
      constructor
      · intro h
        by_cases hii : i = d.image_id
        · rw [kvGet_set, if_pos hii] at h
          have hcc : d.customer_id = c := Option.some.inj h
          refine ⟨d, ?_, hii.symm⟩
          rw [kvGet_set, if_pos hcc.symm]
        · rw [kvGet_set_ne _ _ _ _ hii] at h
          obtain ⟨d', hd', hi'⟩ := (hinv.2 i c).mp h
          refine ⟨d', ?_, hi'⟩
          by_cases hcc : c = d.customer_id
          · exfalso
            rw [hcc, hc] at hd'
            exact Option.noConfusion hd'
          · rw [kvGet_set_ne _ _ _ _ hcc]
            exact hd'
      · rintro ⟨d', hd', hi'⟩
        by_cases hcc : c = d.customer_id
        · rw [kvGet_set, if_pos hcc] at hd'
          have hdd : d = d' := Option.some.inj hd'
          have hii : i = d.image_id := by rw [← hi', ← hdd]
          rw [kvGet_set, if_pos hii, hcc]
        · rw [kvGet_set_ne _ _ _ _ hcc] at hd'
          have hidx : kvGet r.imageIdx i = some c :=
            (hinv.2 i c).mpr ⟨d', hd', hi'⟩
          by_cases hii : i = d.image_id
          · exfalso
            rw [hii, himg] at hidx
            exact Option.noConfusion hidx
          · rw [kvGet_set_ne _ _ _ _ hii]
            exact hidx

theorem regInv_update (r : Registry) (d : CustomerDeployment)
    (hinv : RegInv r) (hpre : regOpPre r (.update d) = true) :
    RegInv (update_deployment r d).2 := by
  rcases Option.eq_none_or_eq_some (kvGet r.deployments d.customer_id)
    with hc | ⟨old, hc⟩
  case inl =>
    have hfail : update_deployment r d = (false, r) := by
      simp [update_deployment, hc]
    rw [hfail]
    exact hinv
  case inr =>
    have hpre' : ∀ c, kvGet r.imageIdx d.image_id = some c →
        c = d.customer_id := by
      intro c h
      have hp := hpre
      simp only [regOpPre, h] at hp
      exact eq_of_beq hp
    by_cases hsame : old.image_id = d.image_id
    · have hupd : update_deployment r d
          = (true,
            { r with
              deployments := kvSet r.deployments d.customer_id d
              imageIdx := kvSet r.imageIdx d.image_id d.customer_id }) := by
        simp [update_deployment, hc, hsame]
      rw [hupd]
      have hidxold : kvGet r.imageIdx d.image_id = some d.customer_id :=
        (hinv.2 d.image_id d.customer_id).mpr ⟨old, hc, hsame⟩
      constructor
      · intro c dd hdd
        by_cases hcc : c = d.customer_id
        · rw [kvGet_set, if_pos hcc] at hdd
          rw [← Option.some.inj hdd, hcc]
        · rw [kvGet_set_ne _ _ _ _ hcc] at hdd
          exact hinv.1 c dd hdd
      · intro i c
        constructor
        · intro h
          by_cases hii : i = d.image_id
          · rw [kvGet_set, if_pos hii] at h
            have hcc := Option.some.inj h
            exact ⟨d, by rw [kvGet_set, if_pos hcc.symm], hii.symm⟩
          · rw [kvGet_set_ne _ _ _ _ hii] at h
            obtain ⟨d', hd', hi'⟩ := (hinv.2 i c).mp h
            by_cases hcc : c = d.customer_id
            · exfalso
              rw [hcc, hc] at hd'
              have hod : old = d' := Option.some.inj hd'
              rw [← hod] at hi'
              exact hii (hi'.symm.trans hsame)
            · exact ⟨d', by rw [kvGet_set_ne _ _ _ _ hcc]; exact hd', hi'⟩
        · rintro ⟨d', hd', hi'⟩
          by_cases hcc : c = d.customer_id
          · rw [kvGet_set, if_pos hcc] at hd'
            have hdd : d = d' := Option.some.inj hd'
            have hii : i = d.image_id := by rw [← hi', ← hdd]
            rw [kvGet_set, if_pos hii, hcc]
          · rw [kvGet_set_ne _ _ _ _ hcc] at hd'
            have hidx : kvGet r.imageIdx i = some c :=
              (hinv.2 i c).mpr ⟨d', hd', hi'⟩
            by_cases hii : i = d.image_id
            · exfalso
              rw [hii, hidxold] at hidx
              exact hcc (Option.some.inj hidx).symm
            · rw [kvGet_set_ne _ _ _ _ hii]
              exact hidx
    · have hupd : update_deployment r d
          = (true,
            { r with
              deployments := kvSet r.deployments d.customer_id d
              imageIdx := kvSet (kvDel r.imageIdx old.image_id)
                  d.image_id d.customer_id }) := by
        simp [update_deployment, hc, hsame]
      rw [hupd]
      constructor
      · intro c dd hdd
        by_cases hcc : c = d.customer_id
        · rw [kvGet_set, if_pos hcc] at hdd
          rw [← Option.some.inj hdd, hcc]
        · rw [kvGet_set_ne _ _ _ _ hcc] at hdd
          exact hinv.1 c dd hdd
      · intro i c
        have hidxold : kvGet r.imageIdx old.image_id = some d.customer_id :=
          (hinv.2 old.image_id d.customer_id).mpr ⟨old, hc, rfl⟩
        constructor
        · intro h
          by_cases hii : i = d.image_id
          · rw [kvGet_set, if_pos hii] at h
            have hcc := Option.some.inj h
            exact ⟨d, by rw [kvGet_set, if_pos hcc.symm], hii.symm⟩
          · rw [kvGet_set_ne _ _ _ _ hii] at h
            by_cases hio : i = old.image_id
            · exfalso
              rw [hio, kvGet_del_self] at h
              exact Option.noConfusion h
            · rw [kvGet_del_ne _ _ _ hio] at h
              obtain ⟨d', hd', hi'⟩ := (hinv.2 i c).mp h
              by_cases hcc : c = d.customer_id
              · exfalso
                rw [hcc, hc] at hd'
                have hod : old = d' := Option.some.inj hd'
                rw [← hod] at hi'
                exact hio hi'.symm
              · exact ⟨d', by rw [kvGet_set_ne _ _ _ _ hcc]; exact hd', hi'⟩
        · rintro ⟨d', hd', hi'⟩
          by_cases hcc : c = d.customer_id
          · rw [kvGet_set, if_pos hcc] at hd'
            have hdd : d = d' := Option.some.inj hd'
            have hii : i = d.image_id := by rw [← hi', ← hdd]
            rw [kvGet_set, if_pos hii, hcc]
          · rw [kvGet_set_ne _ _ _ _ hcc] at hd'
            have hidx : kvGet r.imageIdx i = some c :=
              (hinv.2 i c).mpr ⟨d', hd', hi'⟩
            by_cases hii : i = d.image_id
            · exfalso
              rw [hii] at hidx
              exact hcc (hpre' c hidx)
            · rw [kvGet_set_ne _ _ _ _ hii]
              by_cases hio : i = old.image_id
              · exfalso
                rw [hio, hidxold] at hidx
                exact hcc (Option.some.inj hidx).symm
              · rw [kvGet_del_ne _ _ _ hio]
                exact hidx

theorem regInv_delete (r : Registry) (c₀ : String) (hinv : RegInv r) :
    RegInv (delete_deployment r c₀).2 := by
  rcases Option.eq_none_or_eq_some (kvGet r.deployments c₀)
    with hc | ⟨dep, hc⟩
  case inl =>
    have hdel : delete_deployment r c₀
        = (false, { r with deployments := kvDel r.deployments c₀ }) := by
      simp [delete_deployment, hc]
    rw [hdel]
    constructor
    · intro c dd hdd
      by_cases hcc : c = c₀
      · rw [hcc, kvGet_del_self] at hdd
        exact Option.noConfusion hdd
      · rw [kvGet_del_ne _ _ _ hcc] at hdd
        exact hinv.1 c dd hdd
    · intro i c
      constructor
      · intro h
        obtain ⟨d', hd', hi'⟩ := (hinv.2 i c).mp h
        by_cases hcc : c = c₀
        · exfalso
          rw [hcc, hc] at hd'
          exact Option.noConfusion hd'
        · exact ⟨d', by rw [kvGet_del_ne _ _ _ hcc]; exact hd', hi'⟩
      · rintro ⟨d', hd', hi'⟩
        by_cases hcc : c = c₀
        · exfalso
          rw [hcc, kvGet_del_self] at hd'
          exact Option.noConfusion hd'
        · rw [kvGet_del_ne _ _ _ hcc] at hd'
          exact (hinv.2 i c).mpr ⟨d', hd', hi'⟩
  case inr =>
    have hdel : delete_deployment r c₀
        = (true,
          { deployments := kvDel r.deployments c₀
            imageIdx := kvDel r.imageIdx dep.image_id
            allSet := setRem r.allSet c₀ }) := by
      simp [delete_deployment, hc]
    rw [hdel]
    have hidxdep : kvGet r.imageIdx dep.image_id = some c₀ :=
      (hinv.2 dep.image_id c₀).mpr ⟨dep, hc, rfl⟩
    constructor
    · intro c dd hdd
      by_cases hcc : c = c₀
      · rw [hcc, kvGet_del_self] at hdd
        exact Option.noConfusion hdd
      · rw [kvGet_del_ne _ _ _ hcc] at hdd
        exact hinv.1 c dd hdd
    · intro i c
      constructor
      · intro h
        by_cases hii : i = dep.image_id
        · exfalso
          rw [hii, kvGet_del_self] at h
          exact Option.noConfusion h
        · rw [kvGet_del_ne _ _ _ hii] at h
          obtain ⟨d', hd', hi'⟩ := (hinv.2 i c).mp h
          by_cases hcc : c = c₀
          · exfalso
            rw [hcc, hc] at hd'
            have hdd : dep = d' := Option.some.inj hd'
            rw [← hdd] at hi'
            exact hii hi'.symm
          · exact ⟨d', by rw [kvGet_del_ne _ _ _ hcc]; exact hd', hi'⟩
      · rintro ⟨d', hd', hi'⟩
        by_cases hcc : c = c₀
        · exfalso
          rw [hcc, kvGet_del_self] at hd'
          exact Option.noConfusion hd'
        · rw [kvGet_del_ne _ _ _ hcc] at hd'
          have hidx : kvGet r.imageIdx i = some c :=
            (hinv.2 i c).mpr ⟨d', hd', hi'⟩
          by_cases hii : i = dep.image_id
          · exfalso
            rw [hii, hidxdep] at hidx
            exact hcc (Option.some.inj hidx).symm
          · rw [kvGet_del_ne _ _ _ hii]
            exact hidx

theorem regInv_step (r : Registry) (op : RegOp) (hinv : RegInv r)
    (hpre : regOpPre r op = true) : RegInv (applyRegOp r op) := by
  cases op with
  | register d => exact regInv_register r d hinv hpre
  | update d => exact regInv_update r d hinv hpre
  | delete c => exact regInv_delete r c hinv

theorem regInv_empty : RegInv Registry.empty := by
  constructor
  · intro c d h
    simp [Registry.empty, kvGet] at h
  · intro i c
    constructor
    · intro h
      simp [Registry.empty, kvGet] at h
    · rintro ⟨d, hd, _⟩
      simp [Registry.empty, kvGet] at hd

theorem regInv_run (ops : List RegOp) : ∀ r, RegInv r →
    validRegSeq r ops = true → RegInv (runRegOps r ops) := by
  induction ops with
  | nil => exact fun r h _ => h
  | cons op ops ih =>
    intro r hinv hvalid
    simp only [validRegSeq, Bool.and_eq_true] at hvalid
    exact ih (applyRegOp r op) (regInv_step r op hinv hvalid.1) hvalid.2

/-! ## C6 — registry forward/reverse consistency -/

/-- C6 (amended): after any sequence of register, update and delete
operations from the empty registry in which no register or update takes
over an image id currently mapped to a different customer, the forward
and reverse mappings agree: `get_deployment(c)` has image id `i` iff
`get_deployment_by_image_id(i)` yields customer `c`. -/
theorem registry_consistency (ops : List RegOp)
    (hvalid : validRegSeq Registry.empty ops = true) :
    ∀ c i,
      ((get_deployment (runRegOps Registry.empty ops) c).map
          CustomerDeployment.image_id = some i)
      ↔ ((get_deployment_by_image_id (runRegOps Registry.empty ops) i).map
          CustomerDeployment.customer_id = some c) := by
  intro c i
  have hinv := regInv_run ops Registry.empty regInv_empty hvalid
  constructor
  · intro h
    rcases Option.eq_none_or_eq_some
        (kvGet (runRegOps Registry.empty ops).deployments c) with hd | ⟨d, hd⟩
    · exfalso
      simp only [get_deployment, hd] at h
      exact Option.noConfusion h
    · simp only [get_deployment, hd] at h
      have hi : d.image_id = i := by simpa using h
      have hidx : kvGet (runRegOps Registry.empty ops).imageIdx i = some c :=
        (hinv.2 i c).mpr ⟨d, hd, hi⟩
      have hcd : d.customer_id = c := hinv.1 c d hd
      simp [get_deployment_by_image_id, hidx, get_deployment, hd, hcd]
  · intro h
    rcases Option.eq_none_or_eq_some
        (kvGet (runRegOps Registry.empty ops).imageIdx i) with hx | ⟨c₀, hx⟩
    · exfalso
      simp only [get_deployment_by_image_id, hx] at h
      exact Option.noConfusion h
    · simp only [get_deployment_by_image_id, hx, get_deployment] at h
      rcases Option.eq_none_or_eq_some
          (kvGet (runRegOps Registry.empty ops).deployments c₀)
        with hd | ⟨d, hd⟩
      · exfalso
        rw [hd] at h
        exact Option.noConfusion h
      · rw [hd] at h
        have hcd : d.customer_id = c := by simpa using h
        have hc0 : d.customer_id = c₀ := hinv.1 c₀ d hd
        obtain ⟨d', hd', hi'⟩ := (hinv.2 i c₀).mp hx
        have hdd : d = d' := by
          rw [hd] at hd'
          exact Option.some.inj hd'
        have hcc : c₀ = c := by rw [← hc0, hcd]
        rw [← hcc]
        simp only [get_deployment, hd]
        rw [← hdd] at hi'
        simp [hi']

/-- Counterexample to C6 as stated: two successful registrations with
the same image id leave the mappings in disagreement. -/
theorem registry_consistency_cex :
    (register_deployment Registry.empty cexDep1).1 = true
    ∧ (register_deployment (register_deployment Registry.empty cexDep1).2
        cexDep2).1 = true
    ∧ (get_deployment cexRegistry "c1").map CustomerDeployment.image_id
      = some "i"
    ∧ ¬ ((get_deployment_by_image_id cexRegistry "i").map
        CustomerDeployment.customer_id = some "c1") := by
  decide

/-- Closed instance of `registry_consistency` on a register, update,
register, delete sequence. -/
theorem registry_consistency_witness :
    validRegSeq Registry.empty witnessRegOps = true
    ∧ (((get_deployment (runRegOps Registry.empty witnessRegOps) "c2").map
          CustomerDeployment.image_id = some "i")
      ↔ ((get_deployment_by_image_id (runRegOps Registry.empty witnessRegOps)
            "i").map CustomerDeployment.customer_id = some "c2")) :=
  ⟨by decide, registry_consistency witnessRegOps (by decide) "c2" "i"⟩

/-! ## List prefix-sum lemmas for the ordering theorem -/

theorem sum_take_le_sum (M : List Nat) (a : Nat) : (M.take a).sum ≤ M.sum := by
  conv_rhs => rw [← List.take_append_drop a M]
  rw [List.sum_append]
  exact Nat.le_add_right _ _

theorem sum_take_mono (M : List Nat) (a b : Nat) (hab : a ≤ b) :
    (M.take a).sum ≤ (M.take b).sum := by
  have : M.take a = (M.take b).take a := by
    rw [List.take_take, min_eq_left hab]
  rw [this]
  exact sum_take_le_sum (M.take b) a

theorem flatten_segment {α : Type} (L : List (List α)) :
    ∀ (i : Nat) (h : i < L.length),
      (L.flatten.drop (((L.map List.length).take i).sum)).take
          (L.get ⟨i, h⟩).length
        = L.get ⟨i, h⟩ := by
  induction L with
  | nil => intro i h; exact absurd h (by simp)
  | cons x xs ih =>
    intro i h
    cases i with
    | zero =>
      show ((x ++ xs.flatten).drop ((([] : List Nat)).sum)).take x.length = x
      rw [List.sum_nil, List.drop_zero]
      exact List.take_left x xs.flatten
    | succ i =>
      have hi : i < xs.length := Nat.lt_of_succ_lt_succ h
      show ((x ++ xs.flatten).drop
          ((x.length :: ((xs.map List.length).take i)).sum)).take
          (xs.get ⟨i, hi⟩).length = xs.get ⟨i, hi⟩
      rw [List.sum_cons, List.drop_append]
      exact ih i hi

/-! ## C7 — rule order is preserved in `validate_all` -/

/-- C7: the token stream of the generated `validate_all` contains the
translation of every validation rule as the contiguous segment starting
at its offset, and the segments of earlier rules end no later than the
offsets of later rules — the translations appear in exactly the order of
the document's `validation_rules` list. -/
theorem generate_validations_order (dsl : BusinessRulesDSL) (i : Nat)
    (h : i < dsl.validation_rules.length) :
    (((generate_validations dsl).drop (ruleOffset dsl i)).take
        (generate_validation_rule (dsl.validation_rules.get ⟨i, h⟩)).length
      = generate_validation_rule (dsl.validation_rules.get ⟨i, h⟩))
    ∧ ∀ j (hj : j < i),
      ruleOffset dsl j
          + (generate_validation_rule
              (dsl.validation_rules.get ⟨j, Nat.lt_trans hj h⟩)).length
        ≤ ruleOffset dsl i := by
  have hL : i < (dsl.validation_rules.map generate_validation_rule).length := by
    rw [List.length_map]; exact h
  have hget : (dsl.validation_rules.map generate_validation_rule).get ⟨i, hL⟩
      = generate_validation_rule (dsl.validation_rules.get ⟨i, h⟩) := by
    simp [List.get_eq_getElem]
  have hMlen : i < ((dsl.validation_rules.map generate_validation_rule).map
      List.length).length := by
    rw [List.length_map]; exact hL
  have hbound : (((dsl.validation_rules.map generate_validation_rule).map
        List.length).take i).sum
      + (generate_validation_rule (dsl.validation_rules.get ⟨i, h⟩)).length
      ≤ (dsl.validation_rules.map generate_validation_rule).flatten.length := by
    rw [List.length_flatten]
    have hs := List.sum_take_succ
      ((dsl.validation_rules.map generate_validation_rule).map List.length)
      i hMlen
    have hgl : ((dsl.validation_rules.map generate_validation_rule).map
        List.length)[i] = (generate_validation_rule
          (dsl.validation_rules.get ⟨i, h⟩)).length := by
      rw [List.getElem_map, ← hget]
      rfl
    rw [hgl] at hs
    rw [← hs]
    exact sum_take_le_sum _ _
  constructor
  · unfold generate_validations ruleOffset
    rw [List.append_assoc, List.drop_append]
    have hk : (((dsl.validation_rules.map generate_validation_rule).map
        List.length).take i).sum
        ≤ (dsl.validation_rules.map generate_validation_rule).flatten.length :=
      le_trans (Nat.le_add_right _ _) hbound
    rw [List.drop_append_of_le_length hk]
    rw [List.take_append_of_le_length (by rw [List.length_drop]; omega)]
    rw [← hget]
    exact flatten_segment _ i hL
  · intro j hj
    unfold ruleOffset
    have hjM : j < ((dsl.validation_rules.map generate_validation_rule).map
        List.length).length := by
      rw [List.length_map, List.length_map]
      exact Nat.lt_trans hj h
    have hs := List.sum_take_succ
      ((dsl.validation_rules.map generate_validation_rule).map List.length)
      j hjM
    have hgl : ((dsl.validation_rules.map generate_validation_rule).map
        List.length)[j] = (generate_validation_rule
          (dsl.validation_rules.get ⟨j, Nat.lt_trans hj h⟩)).length := by
      rw [List.getElem_map, List.getElem_map]
      rfl
    rw [hgl] at hs
    have hmono := sum_take_mono
      ((dsl.validation_rules.map generate_validation_rule).map List.length)
      (j + 1) i hj
    omega

/-- Closed instance of `generate_validations_order` at the second rule
of a two-rule document. -/
theorem generate_validations_order_witness :
    1 < c7Dsl.validation_rules.length
    ∧ (((generate_validations c7Dsl).drop (ruleOffset c7Dsl 1)).take
        (generate_validation_rule
          (c7Dsl.validation_rules.get ⟨1, by decide⟩)).length
      = generate_validation_rule
          (c7Dsl.validation_rules.get ⟨1, by decide⟩)) :=
  ⟨by decide, (generate_validations_order c7Dsl 1 (by decide)).1⟩

/-! ## C8 — range-check validation accepts "at least one", not
"exactly one" -/

/-- Counterexample to C8 as stated: a range check carrying `min` and
`min_param` simultaneously (and likewise a `max`) is accepted by
`validate_rule`. -/
theorem validate_rule_range_both_cex :
    validate_rule (ValidationRule.RangeCheck "" "f" (some 1) (some 10) none
        (some "p")) = .ok ()
    ∧ (some 1 : Option Nat).isSome = true
    ∧ (some "p" : Option String).isSome = true :=
  ⟨rfl, rfl, rfl⟩

/-- C8 (amended): `validate_rule` accepts a range check iff the field is
non-empty, at least one of `min`/`min_param` is present, and at least
one of `max`/`max_param` is present; rules carrying both a literal and a
parameter bound are accepted. -/
theorem validate_rule_range_spec (description field : String)
    (min max : Option Nat) (max_param min_param : Option String) :
    validate_rule (.RangeCheck description field min max max_param min_param)
        = .ok ()
    ↔ (field ≠ ""
      ∧ (min.isSome = true ∨ min_param.isSome = true)
      ∧ (max.isSome = true ∨ max_param.isSome = true)) := by
  cases min <;> cases min_param <;> cases max <;> cases max_param <;>
    by_cases hf : field = "" <;> simp [validate_rule, hf]

/-! ## C9 — normalization collisions are not detected -/

/-- Counterexample to C9 as stated: `Age` and `age` collide after
normalization, yet `generate_types` succeeds and emits both as duplicate
`age` fields. -/
theorem generate_types_collision_cex :
    "Age" ≠ "age"
    ∧ to_snake_case "Age" = to_snake_case "age"
    ∧ generate_types cexDsl
      = .ok ⟨[], [("age", .tU32), ("age", .tU32)], [],
          [("compliance_result", .tBool)]⟩ :=
  ⟨by decide, rfl, rfl⟩

/-- C9 (amended): when two distinct field names of an object
private-input schema become equal under `to_snake_case`, code generation
does not return an error: `generate_types` succeeds, and the generated
`PrivateInputs` field names contain the normalized name at least twice
(so they are not duplicate-free). -/
theorem generate_types_no_collision_error (dsl : BusinessRulesDSL)
    (o : ObjectSchema) (hschema : dsl.private_inputs = .object o)
    (n1 n2 t1 t2 : String) (h1 : (n1, t1) ∈ o.fields)
    (h2 : (n2, t2) ∈ o.fields) (hne : n1 ≠ n2)
    (hcol : to_snake_case n1 = to_snake_case n2) :
    ∃ g, generate_types dsl = .ok g
      ∧ 2 ≤ (g.privateFields.map Prod.fst).count (to_snake_case n1)
      ∧ ¬ (g.privateFields.map Prod.fst).Nodup := by
  obtain ⟨pp, hpp⟩ : ∃ pp, generate_public_params dsl.public_params = .ok pp := by
    cases dsl.public_params <;> exact ⟨_, rfl⟩
  have hcount : 2 ≤ ((generate_fields o.fields).map Prod.fst).count
      (to_snake_case n1) := by
    have hmap : (generate_fields o.fields).map Prod.fst
        = o.fields.map (fun p => to_snake_case p.1) := by
      simp [generate_fields, List.map_map, Function.comp]
    rw [hmap]
    obtain ⟨s, t, hst⟩ := List.append_of_mem h1
    have hne2 : (n2, t2) ≠ (n1, t1) := fun hp => hne (congrArg Prod.fst hp).symm
    have h2' : (n2, t2) ∈ s ++ t := by
      rw [hst] at h2
      rcases List.mem_append.mp h2 with hs | ht
      · exact List.mem_append.mpr (Or.inl hs)
      · rcases List.mem_cons.mp ht with heq | ht'
        · exact absurd heq hne2
        · exact List.mem_append.mpr (Or.inr ht')
    rw [hst, List.map_append, List.map_cons, List.count_append,
      List.count_cons_self]
    have hmem : to_snake_case n1
        ∈ (s.map fun p => to_snake_case p.1)
          ++ (t.map fun p => to_snake_case p.1) := by
      rcases List.mem_append.mp h2' with hs | ht
      · refine List.mem_append.mpr (Or.inl ?_)
        rw [hcol]
        exact List.mem_map_of_mem _ hs
      · refine List.mem_append.mpr (Or.inr ?_)
        rw [hcol]
        exact List.mem_map_of_mem _ ht
    have hpos := List.count_pos_iff.mpr hmem
    rw [List.count_append] at hpos
    omega
  refine ⟨⟨[], generate_fields o.fields, pp,
      ("compliance_result", RustTy.tBool)
        :: dsl.outputs_additional.map
          (fun p => (to_snake_case p.1, map_type_string p.2))⟩, ?_, hcount, ?_⟩
  · simp [generate_types, hschema, generate_private_inputs, hpp,
      generate_outputs]
  · intro hnd
    have h1c : List.count (to_snake_case n1)
        ((generate_fields o.fields).map Prod.fst) ≤ 1 :=
      List.nodup_iff_count_le_one.mp hnd (to_snake_case n1)
    omega

/-- Closed instance of `generate_types_no_collision_error` at the
`Age`/`age` collision. -/
theorem generate_types_no_collision_error_witness :
    ∃ g, generate_types cexDsl = .ok g
      ∧ 2 ≤ (g.privateFields.map Prod.fst).count (to_snake_case "Age")
      ∧ ¬ (g.privateFields.map Prod.fst).Nodup :=
  generate_types_no_collision_error cexDsl
    ⟨"object", [("Age", "u32"), ("age", "u32")]⟩ rfl "Age" "age" "u32" "u32"
    (by decide) (by decide) (by decide) rfl

end Khafi
